import Mathlib

/-!
Shallow embedding of the LAMMPS pair style `inv/poly`
(`src/USER-MISC/pair_inv_poly.cpp` / `.h`), the inverse-even-polynomial
pairwise potential, together with theorems checking the natural-language
specification against it.

Machine doubles are embedded as exact rationals `ℚ`; the per-type-pair
parameter tables (`(ntypes+1) x (ntypes+1)` C arrays) are embedded as total
functions `ℕ → ℕ → ℚ`, and each C assignment `tab[i][j] = v` becomes a
pointwise functional update.  Host facilities that live outside the two
source files (the `Pair` base class, `utils`, MPI, file I-O) are modelled
from the spec where a claim needs them; every such definition carries a
doc comment starting with "Modelled from the spec:".
-/

/-- Vector of three coordinates, standing for the per-particle `x[i][0..2]`
and `f[i][0..2]` triples. -/
abbrev Vec3 : Type := ℚ × ℚ × ℚ

/-- Componentwise vector addition, used for `f[i][k] += ...`. -/
def addv (u v : Vec3) : Vec3 := (u.1 + v.1, u.2.1 + v.2.1, u.2.2 + v.2.2)

/-- Componentwise vector subtraction, used for `f[j][k] -= ...`. -/
def subv (u v : Vec3) : Vec3 := (u.1 - v.1, u.2.1 - v.2.1, u.2.2 - v.2.2)

/-- Scaling of a separation vector by a scalar, in the source's operand
order `delx*fpair`, `dely*fpair`, `delz*fpair`. -/
def scalev (c : ℚ) (d : Vec3) : Vec3 := (d.1 * c, d.2.1 * c, d.2.2 * c)

/-- Separation vector `(delx, dely, delz) = x[i] - x[j]` of `compute`. -/
def delVec (x : ℕ → Vec3) (i j : ℕ) : Vec3 :=
  ((x i).1 - (x j).1, (x i).2.1 - (x j).2.1, (x i).2.2 - (x j).2.2)

/-- Squared separation `rsq = delx*delx + dely*dely + delz*delz`. -/
def rsqOf (d : Vec3) : ℚ := d.1 * d.1 + d.2.1 * d.2.1 + d.2.2 * d.2.2

/-- Pointwise update of a rational table, the embedding of the C array
assignment `tab[i][j] = v`. -/
def upd2 (f : ℕ → ℕ → ℚ) (i j : ℕ) (v : ℚ) : ℕ → ℕ → ℚ :=
  fun a b => if a = i ∧ b = j then v else f a b

/-- Pointwise update of a boolean table, the embedding of the C array
assignment `setflag[i][j] = v`. -/
def updb (f : ℕ → ℕ → Bool) (i j : ℕ) (v : Bool) : ℕ → ℕ → Bool :=
  fun a b => if a = i ∧ b = j then v else f a b

/-- State of a `PairInvPoly` object: the scalar settings and every
per-type-pair table declared in `pair_inv_poly.h` (plus `setflag`,
`cutsq`, `cut_global`, `offset_flag`, `mix_flag`, `allocated` inherited
from the `Pair` base class).  `ntypes` stands for `atom->ntypes`.
`setflag` is `int` in C with values 0/1; it is embedded as `Bool`.
`mix_flag` is an integer policy selector carried through unchanged; it is
embedded as `ℚ` so that it can travel through the restart stream. -/
structure PairState where
  ntypes : ℕ
  allocated : Bool
  cut_global : ℚ
  offset_flag : Bool
  mix_flag : ℚ
  setflag : ℕ → ℕ → Bool
  cut : ℕ → ℕ → ℚ
  cutsq : ℕ → ℕ → ℚ
  sigma : ℕ → ℕ → ℚ
  offset : ℕ → ℕ → ℚ
  a2 : ℕ → ℕ → ℚ
  a4 : ℕ → ℕ → ℚ
  a6 : ℕ → ℕ → ℚ
  a8 : ℕ → ℕ → ℚ
  a10 : ℕ → ℕ → ℚ
  a12 : ℕ → ℕ → ℚ
  inv_poly2 : ℕ → ℕ → ℚ
  inv_poly4 : ℕ → ℕ → ℚ
  inv_poly6 : ℕ → ℕ → ℚ
  inv_poly8 : ℕ → ℕ → ℚ
  inv_poly10 : ℕ → ℕ → ℚ
  inv_poly12 : ℕ → ℕ → ℚ
  dinv_poly2 : ℕ → ℕ → ℚ
  dinv_poly4 : ℕ → ℕ → ℚ
  dinv_poly6 : ℕ → ℕ → ℚ
  dinv_poly8 : ℕ → ℕ → ℚ
  dinv_poly10 : ℕ → ℕ → ℚ
  dinv_poly12 : ℕ → ℕ → ℚ

/-- Allocation (`PairInvPoly::allocate`, lines 150-187): marks the object
allocated and zeroes the configured-flags of the upper triangle
`1 ≤ i ≤ j ≤ ntypes` (the C code leaves every other freshly created array
entry uninitialized, so all remaining tables keep their previous -
arbitrary - values in the embedding as well). -/
def allocate (s : PairState) : PairState :=
  { s with allocated := true,
           setflag := fun i j =>
             if 1 ≤ i ∧ i ≤ j ∧ j ≤ s.ntypes then false else s.setflag i j }

/-- Errors signalled through `error->all` in the configuration path. -/
inductive ConfigError : Type where
  | illegalStyle : ConfigError
  | incorrectArgs : ConfigError
  | badTypeRange : ConfigError

/-- Loop body of `PairInvPoly::settings` (lines 201-206): for every upper
triangle pair with its configured-flag set, overwrite the stored cutoff
with the current global cutoff. -/
def settingsFold (l : List (ℕ × ℕ)) (s : PairState) : PairState :=
  l.foldl
    (fun acc p =>
      if acc.setflag p.1 p.2 = true then
        { acc with cut := upd2 acc.cut p.1 p.2 acc.cut_global }
      else acc)
    s

/-- Upper-triangle pair enumeration `for i = lo..hi, j = max(jlo,i)..jhi`
used by `coeff`'s fill loop (lines 248-249). -/
def coeffPairs (ilo ihi jlo jhi : ℕ) : List (ℕ × ℕ) :=
  (List.range' ilo (ihi + 1 - ilo)).flatMap
    (fun i => (List.range' (max jlo i) (jhi + 1 - max jlo i)).map (fun j => (i, j)))

/-- Upper-triangle enumeration `for i = 1..n, j = i..n` used by
`settings`, `write_restart` and `read_restart`. -/
def upperPairs (n : ℕ) : List (ℕ × ℕ) := coeffPairs 1 n 1 n

/-- Global settings command `PairInvPoly::settings` (lines 193-207):
exactly one argument, whose value becomes `cut_global`; if allocated, the
cutoff of every configured upper-triangle pair is reset to it.  An error
carries the object state at the moment `error->all` aborts. -/
def settings (narg : ℕ) (v : ℚ) (s : PairState) :
    Except (ConfigError × PairState) PairState :=
  if narg ≠ 1 then .error (.illegalStyle, s)
  else
    let s1 := { s with cut_global := v }
    if s1.allocated then .ok (settingsFold (upperPairs s1.ntypes) s1)
    else .ok s1

/-- Modelled from the spec: `utils::bounds` (not under `src/`) parses a
type-range argument and "validates `1 ≤ range bounds ≤ ntypes`", aborting
with an error otherwise.  The argument is embedded already parsed, as the
pair (lower bound, upper bound). -/
abbrev boundsOK (ntypes : ℕ) (b : ℕ × ℕ) : Prop :=
  1 ≤ b.1 ∧ b.1 ≤ ntypes ∧ 1 ≤ b.2 ∧ b.2 ≤ ntypes

/-- Fill loop of `PairInvPoly::coeff` (lines 247-261): for every pair in
the enumerated range, store sigma, the cutoff, the six shape coefficients
and set the configured-flag. -/
def coeffFold (sigma_one cut_one a2_one a4_one a6_one a8_one a10_one a12_one : ℚ)
    (l : List (ℕ × ℕ)) (s : PairState) : PairState :=
  l.foldl
    (fun acc p =>
      { acc with
        sigma := upd2 acc.sigma p.1 p.2 sigma_one,
        cut := upd2 acc.cut p.1 p.2 cut_one,
        a2 := upd2 acc.a2 p.1 p.2 a2_one,
        a4 := upd2 acc.a4 p.1 p.2 a4_one,
        a6 := upd2 acc.a6 p.1 p.2 a6_one,
        a8 := upd2 acc.a8 p.1 p.2 a8_one,
        a10 := upd2 acc.a10 p.1 p.2 a10_one,
        a12 := upd2 acc.a12 p.1 p.2 a12_one,
        setflag := updb acc.setflag p.1 p.2 true })
    s

/-- Pair-coefficient command `PairInvPoly::coeff` (lines 213-264).  The two
type-range arguments arrive pre-parsed as bound pairs (their validation
against `[1, ntypes]` models `utils::bounds`, which lives outside `src/`);
`vals` holds the remaining numeric arguments
`sigma a2 a4 a6 a8 a10 a12 [cut]`, so the C `narg` equals
`2 + vals.length`.  Errors carry the object state at the abort point;
`error->all` fires for a wrong argument count, an out-of-range type bound,
or a range that touches zero pairs. -/
def coeff (iarg jarg : ℕ × ℕ) (vals : List ℚ) (s : PairState) :
    Except (ConfigError × PairState) PairState :=
  let narg := 2 + vals.length
  if narg < 9 ∨ 10 < narg then .error (.incorrectArgs, s)
  else
    let s1 := if s.allocated then s else allocate s
    if ¬ boundsOK s1.ntypes iarg then .error (.badTypeRange, s1)
    else if ¬ boundsOK s1.ntypes jarg then .error (.badTypeRange, s1)
    else
      match vals with
      | sigma_one :: a2_one :: a4_one :: a6_one :: a8_one :: a10_one :: a12_one :: restArgs =>
        let cut_one := match restArgs with
          | [c] => c
          | _ => s1.cut_global
        let ps := coeffPairs iarg.1 iarg.2 jarg.1 jarg.2
        let s2 := coeffFold sigma_one cut_one a2_one a4_one a6_one a8_one a10_one a12_one ps s1
        if ps.length = 0 then .error (.incorrectArgs, s2) else .ok s2
      | _ => .error (.incorrectArgs, s1)

/-- Mixing step of `PairInvPoly::init_one` (lines 273-276): when the pair
is not explicitly configured, derive `sigma[i][j]` and `cut[i][j]` from the
diagonal entries.  The source calls `Pair::mix_distance`, which lives
outside `src/` and depends on the host's `mix_flag` policy; per the spec it
is a pluggable strategy, so it is passed in as the function `mix`. -/
def mixStage (mix : ℚ → ℚ → ℚ) (i j : ℕ) (s : PairState) : PairState :=
  if s.setflag i j = false then
    { s with
      sigma := upd2 s.sigma i j (mix (s.sigma i i) (s.sigma j j)),
      cut := upd2 s.cut i j (mix (s.cut i i) (s.cut j j)) }
  else s

/-- Precomputation step of `PairInvPoly::init_one` (lines 279-292): the six
potential coefficients `inv_poly_k = a_k * sigma^k` and the six force
coefficients `dinv_poly_k = k * a_k * sigma^k` (the C `pow(sigma, k.0)`
becomes the exact power `sigma ^ k`). -/
def derivStage (i j : ℕ) (s : PairState) : PairState :=
  let sg := s.sigma i j
  { s with
    inv_poly2 := upd2 s.inv_poly2 i j (s.a2 i j * sg ^ 2),
    inv_poly4 := upd2 s.inv_poly4 i j (s.a4 i j * sg ^ 4),
    inv_poly6 := upd2 s.inv_poly6 i j (s.a6 i j * sg ^ 6),
    inv_poly8 := upd2 s.inv_poly8 i j (s.a8 i j * sg ^ 8),
    inv_poly10 := upd2 s.inv_poly10 i j (s.a10 i j * sg ^ 10),
    inv_poly12 := upd2 s.inv_poly12 i j (s.a12 i j * sg ^ 12),
    dinv_poly2 := upd2 s.dinv_poly2 i j (2 * s.a2 i j * sg ^ 2),
    dinv_poly4 := upd2 s.dinv_poly4 i j (4 * s.a4 i j * sg ^ 4),
    dinv_poly6 := upd2 s.dinv_poly6 i j (6 * s.a6 i j * sg ^ 6),
    dinv_poly8 := upd2 s.dinv_poly8 i j (8 * s.a8 i j * sg ^ 8),
    dinv_poly10 := upd2 s.dinv_poly10 i j (10 * s.a10 i j * sg ^ 10),
    dinv_poly12 := upd2 s.dinv_poly12 i j (12 * s.a12 i j * sg ^ 12) }

/-- Offset step of `PairInvPoly::init_one` (lines 297-300): when the shift
flag is on and the cutoff is positive, `offset[i][j]` is the sum of the six
even powers of `sigma[i][j]/cut[i][j]` (note: the shape coefficients `a_k`
do not appear in this line of the source); otherwise it is zero. -/
def offsetStage (i j : ℕ) (s : PairState) : PairState :=
  if s.offset_flag = true ∧ 0 < s.cut i j then
    let rr := s.sigma i j / s.cut i j
    { s with
      offset := upd2 s.offset i j (rr ^ 2 + rr ^ 4 + rr ^ 6 + rr ^ 8 + rr ^ 10 + rr ^ 12) }
  else { s with offset := upd2 s.offset i j 0 }

/-- Symmetrization step of `PairInvPoly::init_one` (lines 302-317): copy
the twelve precomputed coefficient tables and `offset` from `(i,j)` to
`(j,i)`.  The source mirrors nothing else - in particular neither `sigma`
nor `cut`. -/
def mirrorStage (i j : ℕ) (s : PairState) : PairState :=
  { s with
    inv_poly2 := upd2 s.inv_poly2 j i (s.inv_poly2 i j),
    inv_poly4 := upd2 s.inv_poly4 j i (s.inv_poly4 i j),
    inv_poly6 := upd2 s.inv_poly6 j i (s.inv_poly6 i j),
    inv_poly8 := upd2 s.inv_poly8 j i (s.inv_poly8 i j),
    inv_poly10 := upd2 s.inv_poly10 j i (s.inv_poly10 i j),
    inv_poly12 := upd2 s.inv_poly12 j i (s.inv_poly12 i j),
    dinv_poly2 := upd2 s.dinv_poly2 j i (s.dinv_poly2 i j),
    dinv_poly4 := upd2 s.dinv_poly4 j i (s.dinv_poly4 i j),
    dinv_poly6 := upd2 s.dinv_poly6 j i (s.dinv_poly6 i j),
    dinv_poly8 := upd2 s.dinv_poly8 j i (s.dinv_poly8 i j),
    dinv_poly10 := upd2 s.dinv_poly10 j i (s.dinv_poly10 i j),
    dinv_poly12 := upd2 s.dinv_poly12 j i (s.dinv_poly12 i j),
    offset := upd2 s.offset j i (s.offset i j) }

/-- Pair initialization `PairInvPoly::init_one` (lines 270-320): mixing of
unset pairs, precomputation of the derived coefficient tables, the optional
energy-shift offset, symmetrization of the derived tables, returning
`cut[i][j]`. -/
def init_one (mix : ℚ → ℚ → ℚ) (i j : ℕ) (s : PairState) : PairState × ℚ :=
  let s1 := mixStage mix i j s
  let s2 := derivStage i j s1
  let s3 := offsetStage i j s2
  let s4 := mirrorStage i j s3
  (s4, s4.cut i j)

/-- Modelled from the spec: the host (`Pair::init`, outside `src/`) derives
the `CutoffSquaredTable` from `init_one`'s return value,
`cutsq[i][j] = cutsq[j][i] = cut[i][j]^2`. -/
def init_pair (mix : ℚ → ℚ → ℚ) (i j : ℕ) (s : PairState) : PairState :=
  let r := init_one mix i j s
  { r.1 with cutsq := upd2 (upd2 r.1.cutsq i j (r.2 * r.2)) j i (r.2 * r.2) }

/-- Settings writer `PairInvPoly::write_restart_settings` (lines 384-389):
emits `cut_global`, `offset_flag` (an int, 1/0 here) and `mix_flag`. -/
def write_restart_settings (s : PairState) : List ℚ :=
  [s.cut_global, if s.offset_flag then 1 else 0, s.mix_flag]

/-- Pair section of `PairInvPoly::write_restart` (lines 330-338): per upper
triangle pair, the configured-flag (an int, 1/0 here) and, when set,
`sigma[i][j]` then `cut[i][j]` - nothing else. -/
def write_restart_pairs (s : PairState) : List ℚ :=
  (upperPairs s.ntypes).flatMap
    (fun p =>
      (if s.setflag p.1 p.2 then (1 : ℚ) else 0) ::
        (if s.setflag p.1 p.2 then [s.sigma p.1 p.2, s.cut p.1 p.2] else []))

/-- Restart writer `PairInvPoly::write_restart` (lines 326-339): settings
stream followed by the per-pair stream. -/
def write_restart (s : PairState) : List ℚ :=
  write_restart_settings s ++ write_restart_pairs s

/-- Settings reader `PairInvPoly::read_restart_settings` (lines 395-406):
consumes `cut_global`, `offset_flag`, `mix_flag`; `sfread` aborts on a
truncated stream, embedded as `none`. -/
def read_restart_settings (stream : List ℚ) (s : PairState) :
    Option (PairState × List ℚ) :=
  match stream with
  | cg :: ofl :: mfl :: rest =>
    some ({ s with cut_global := cg,
                   offset_flag := if ofl = 0 then false else true,
                   mix_flag := mfl }, rest)
  | _ => none

/-- Pair loop of `PairInvPoly::read_restart` (lines 353-377): per upper
triangle pair, read the configured-flag; when it is nonzero, read
`sigma, a2, a4, a6, a8, a10, a12, cut` - eight values.  A truncated stream
makes `sfread` abort, embedded as `none`. -/
def readPairsLoop : List (ℕ × ℕ) → PairState → List ℚ → Option (PairState × List ℚ)
  | [], s, stream => some (s, stream)
  | p :: ps, s, stream =>
    match stream with
    | [] => none
    | flag :: rest =>
      if flag = 0 then
        readPairsLoop ps { s with setflag := updb s.setflag p.1 p.2 false } rest
      else
        match rest with
        | sg :: b2 :: b4 :: b6 :: b8 :: b10 :: b12 :: c :: rest2 =>
          readPairsLoop ps
            { s with
              setflag := updb s.setflag p.1 p.2 true,
              sigma := upd2 s.sigma p.1 p.2 sg,
              a2 := upd2 s.a2 p.1 p.2 b2,
              a4 := upd2 s.a4 p.1 p.2 b4,
              a6 := upd2 s.a6 p.1 p.2 b6,
              a8 := upd2 s.a8 p.1 p.2 b8,
              a10 := upd2 s.a10 p.1 p.2 b10,
              a12 := upd2 s.a12 p.1 p.2 b12,
              cut := upd2 s.cut p.1 p.2 c }
            rest2
        | _ => none

/-- Restart reader `PairInvPoly::read_restart` (lines 345-378): read the
settings, allocate, then run the per-pair loop. -/
def read_restart (stream : List ℚ) (s : PairState) :
    Option (PairState × List ℚ) :=
  match read_restart_settings stream s with
  | none => none
  | some (s1, rest) => readPairsLoop (upperPairs (allocate s1).ntypes) (allocate s1) rest

/-- Single-pair evaluator `PairInvPoly::single` (lines 433-455): returns
the pair `(energy, fforce)` - the C function's return value `factor*phi`
and its output parameter `fforce = factor * forceinvpoly * r2inv`. -/
def single (sp : PairState) (itype jtype : ℕ) (rsq factor_lj : ℚ) : ℚ × ℚ :=
  let factor := factor_lj
  let r2inv := 1 / rsq
  let r4inv := r2inv * r2inv
  let r6inv := r4inv * r2inv
  let r8inv := r6inv * r2inv
  let r10inv := r8inv * r2inv
  let r12inv := r10inv * r2inv
  let forceinvpoly :=
    sp.dinv_poly2 itype jtype * r2inv + sp.dinv_poly4 itype jtype * r4inv +
    sp.dinv_poly6 itype jtype * r6inv + sp.dinv_poly8 itype jtype * r8inv +
    sp.dinv_poly10 itype jtype * r10inv + sp.dinv_poly12 itype jtype * r12inv
  let fforce := factor * forceinvpoly * r2inv
  let phi :=
    sp.inv_poly2 itype jtype * r2inv + sp.inv_poly4 itype jtype * r4inv +
    sp.inv_poly6 itype jtype * r6inv + sp.inv_poly8 itype jtype * r8inv +
    sp.inv_poly10 itype jtype * r10inv + sp.inv_poly12 itype jtype * r12inv -
    sp.offset itype jtype
  (factor * phi, fforce)

/-- Mutable state threaded through a `compute` pass: the pair-style object
state, the external per-particle force array `f`, and the external
energy/virial accumulator.  Modelled from the spec: `ev_tally` (outside
`src/`) receives `(i, j, evdwl, 0.0 for coulomb, fpair, delx, dely, delz)`
per evaluated pair; the accumulator is embedded as the list of those
tuples, most recent first. -/
structure SimState where
  pair : PairState
  f : ℕ → Vec3
  tally : List (ℕ × ℕ × ℚ × ℚ × ℚ × Vec3)

/-- Body of the inner neighbor loop of `PairInvPoly::compute`
(lines 92-139) for one candidate `(i, j)` with exclusion factor `factor`
(the source's `special_lj[sbmask(j)]`; the neighbor entry arrives already
decoded as the pair `(j, factor)`).  Inside the cutoff: the inverse-square
ladder, `forceinvpoly`, `fpair`, the force accumulation on `i`, the
Newton-gated reaction on `j`, the energy when `eflag`, and the tally when
`evflag`.  Outside the cutoff the candidate is skipped. -/
def computeOne (newton : Bool) (nlocal : ℕ) (x : ℕ → Vec3) (typ : ℕ → ℕ)
    (eflag evflag : Bool) (i : ℕ) (st : SimState) (jf : ℕ × ℚ) : SimState :=
  let j := jf.1
  let factor := jf.2
  let del := delVec x i j
  let rsq := rsqOf del
  let itype := typ i
  let jtype := typ j
  if rsq < st.pair.cutsq itype jtype then
    let r2inv := 1 / rsq
    let r4inv := r2inv * r2inv
    let r6inv := r4inv * r2inv
    let r8inv := r6inv * r2inv
    let r10inv := r8inv * r2inv
    let r12inv := r10inv * r2inv
    let forceinvpoly :=
      st.pair.dinv_poly2 itype jtype * r2inv + st.pair.dinv_poly4 itype jtype * r4inv +
      st.pair.dinv_poly6 itype jtype * r6inv + st.pair.dinv_poly8 itype jtype * r8inv +
      st.pair.dinv_poly10 itype jtype * r10inv + st.pair.dinv_poly12 itype jtype * r12inv
    let fpair := factor * forceinvpoly * r2inv
    let st1 := { st with f := fun k => if k = i then addv (st.f i) (scalev fpair del) else st.f k }
    let st2 :=
      if newton = true ∨ j < nlocal then
        { st1 with f := fun k => if k = j then subv (st1.f j) (scalev fpair del) else st1.f k }
      else st1
    let evdwl :=
      if eflag = true then
        (st.pair.inv_poly2 itype jtype * r2inv + st.pair.inv_poly4 itype jtype * r4inv +
         st.pair.inv_poly6 itype jtype * r6inv + st.pair.inv_poly8 itype jtype * r8inv +
         st.pair.inv_poly10 itype jtype * r10inv + st.pair.inv_poly12 itype jtype * r12inv -
         st.pair.offset itype jtype) * factor
      else 0
    if evflag = true then
      { st2 with tally := (i, j, evdwl, 0, fpair, del) :: st2.tally }
    else st2
  else st

/-- Force/energy kernel `PairInvPoly::compute` (lines 59-144): loop over
the owned atoms `ilist` and, per atom, over its neighbor list.  `ev_init`
lives outside `src/`; per the spec's energy/virial request flags it is
modelled as `evflag = eflag || vflag`. -/
def compute (eflag vflag newton : Bool) (nlocal : ℕ) (x : ℕ → Vec3) (typ : ℕ → ℕ)
    (ilist : List ℕ) (neigh : ℕ → List (ℕ × ℚ)) (st : SimState) : SimState :=
  let evflag := eflag || vflag
  ilist.foldl
    (fun acc i => (neigh i).foldl (computeOne newton nlocal x typ eflag evflag i) acc)
    st

/-- Freshly constructed pair-style state with `n` atom types: nothing
allocated, nothing configured, all tables zero. -/
def basePairState (n : ℕ) : PairState where
  ntypes := n
  allocated := false
  cut_global := 0
  offset_flag := false
  mix_flag := 0
  setflag := fun _ _ => false
  cut := fun _ _ => 0
  cutsq := fun _ _ => 0
  sigma := fun _ _ => 0
  offset := fun _ _ => 0
  a2 := fun _ _ => 0
  a4 := fun _ _ => 0
  a6 := fun _ _ => 0
  a8 := fun _ _ => 0
  a10 := fun _ _ => 0
  a12 := fun _ _ => 0
  inv_poly2 := fun _ _ => 0
  inv_poly4 := fun _ _ => 0
  inv_poly6 := fun _ _ => 0
  inv_poly8 := fun _ _ => 0
  inv_poly10 := fun _ _ => 0
  inv_poly12 := fun _ _ => 0
  dinv_poly2 := fun _ _ => 0
  dinv_poly4 := fun _ _ => 0
  dinv_poly6 := fun _ _ => 0
  dinv_poly8 := fun _ _ => 0
  dinv_poly10 := fun _ _ => 0
  dinv_poly12 := fun _ _ => 0

/-- Concrete mixing rule (arithmetic mean) used to instantiate the
pluggable `mix` parameter in witnesses and counterexamples. -/
def mixArith : ℚ → ℚ → ℚ := fun x y => (x + y) / 2

/-- Concrete map sending every particle to type 1. -/
def typOne : ℕ → ℕ := fun _ => 1

/-- Concrete one-type state with pair (1,1) configured (`sigma = 2`,
`cut = 3`, `a2 = 5`), used to exercise the restart writer/reader pair. -/
def restartDemoState : PairState :=
  { basePairState 1 with
    allocated := true
    cut_global := 4
    offset_flag := true
    mix_flag := 1
    setflag := fun i j => i = 1 ∧ j = 1
    sigma := fun _ _ => 2
    cut := fun _ _ => 3
    a2 := fun _ _ => 5 }

/-- Concrete two-type state whose every table entry holds 7, standing for
the arbitrary contents of freshly allocated (uninitialized) C arrays. -/
def junkState : PairState :=
  { basePairState 2 with
    cut_global := 5
    sigma := fun _ _ => 7
    cut := fun _ _ => 7
    cutsq := fun _ _ => 7
    offset := fun _ _ => 7
    a2 := fun _ _ => 7
    a4 := fun _ _ => 7
    a6 := fun _ _ => 7
    a8 := fun _ _ => 7
    a10 := fun _ _ => 7
    a12 := fun _ _ => 7
    inv_poly2 := fun _ _ => 7
    inv_poly4 := fun _ _ => 7
    inv_poly6 := fun _ _ => 7
    inv_poly8 := fun _ _ => 7
    inv_poly10 := fun _ _ => 7
    inv_poly12 := fun _ _ => 7
    dinv_poly2 := fun _ _ => 7
    dinv_poly4 := fun _ _ => 7
    dinv_poly6 := fun _ _ => 7
    dinv_poly8 := fun _ _ => 7
    dinv_poly10 := fun _ _ => 7
    dinv_poly12 := fun _ _ => 7 }

/-- Two-type state after `pair_coeff 1*2 1*2 2 1 0 0 0 0 0` on top of the
junk state: pairs (1,1), (1,2), (2,2) configured with `sigma = 2`, the
lower-triangle entries still holding the junk value 7. -/
def asymState : PairState :=
  ((coeff (1, 2) (1, 2) [2, 1, 0, 0, 0, 0, 0] junkState).toOption).getD junkState

/-- Result of resolving pair (1,2) of `asymState`. -/
def asymResolved : PairState := (init_one mixArith 1 2 asymState).1

/-- Concrete one-type state with the shift flag on, `sigma = 2`, `cut = 1`
and all six shape coefficients zero, used against the offset formula. -/
def offsetDemoState : PairState :=
  { basePairState 1 with
    allocated := true
    offset_flag := true
    setflag := fun _ _ => true
    sigma := fun _ _ => 2
    cut := fun _ _ => 1 }

/-- Result of resolving pair (1,1) of `offsetDemoState`. -/
def offsetDemoResolved : PairState := (init_one mixArith 1 1 offsetDemoState).1

/-- One-type state after `pair_coeff 1 1 1 1 0 0 0 0 0 3`, i.e. pair (1,1)
configured with an explicit per-pair cutoff of 3. -/
def explicitCutState : PairState :=
  ((coeff (1, 1) (1, 1) [1, 1, 0, 0, 0, 0, 0, 3] (basePairState 1)).toOption).getD
    (basePairState 1)

/-- State after a subsequent `pair_style inv/poly 10` on
`explicitCutState`. -/
def explicitCutAfterSettings : PairState :=
  ((settings 1 10 explicitCutState).toOption).getD explicitCutState

/-- One-type state of the spec's concrete scenario after
`pair_coeff 1 1 1.0 1.0 0 0 0 0 0 2.5`: `sigma = 1`, `a2 = 1`, the other
shape coefficients zero, `cut = 2.5`. -/
def scenarioCoeffState : PairState :=
  ((coeff (1, 1) (1, 1) [1, 1, 0, 0, 0, 0, 0, 5 / 2] (basePairState 1)).toOption).getD
    (basePairState 1)

/-- Scenario state after resolving pair (1,1) and deriving `cutsq`. -/
def scenarioState : PairState := init_pair mixArith 1 1 scenarioCoeffState

/-- Scenario simulation state: zero forces, empty tally. -/
def scenarioSim : SimState :=
  { pair := scenarioState, f := fun _ => (0, 0, 0), tally := [] }

/-- Scenario positions: particle 0 at (1,0,0), every other at the origin,
so particles 0 and 1 sit at separation r = 1. -/
def scenarioX : ℕ → Vec3 := fun n => if n = 0 then ((1 : ℚ), 0, 0) else (0, 0, 0)

/-- Scenario neighbor lists: particle 0 sees particle 1 with exclusion
factor 1; no other candidates. -/
def scenarioNeigh : ℕ → List (ℕ × ℚ) := fun n => if n = 0 then [(1, (1 : ℚ))] else []

/-- Scenario kernel pass: energy and virial requested, half list with
`newton_pair` off, both particles local. -/
def scenarioOut : SimState :=
  compute true true false 2 scenarioX typOne [0] scenarioNeigh scenarioSim

/-- One-type state whose squared cutoff for (1,1) is 4, for the boundary
check. -/
def boundarySim : SimState :=
  { pair := { basePairState 1 with cutsq := fun _ _ => 4 },
    f := fun _ => (0, 0, 0), tally := [] }

/-- Boundary positions: particles 0 and 1 at separation r = 2, so
`rsq = 4` equals the squared cutoff exactly. -/
def boundaryX : ℕ → Vec3 := fun n => if n = 0 then ((2 : ℚ), 0, 0) else (0, 0, 0)

/-- Allocated two-type state used to instantiate the coeff error
theorem. -/
def allocState : PairState := { basePairState 2 with allocated := true }

/-- State component of `init_one`'s result (the resolved pair table). -/
def resolved (mix : ℚ → ℚ → ℚ) (i j : ℕ) (s : PairState) : PairState :=
  (init_one mix i j s).1

/- ------------------------------------------------------------------ -/
/- Helper lemmas -/
/- ------------------------------------------------------------------ -/

theorem upd2_at (f : ℕ → ℕ → ℚ) (i j : ℕ) (v : ℚ) : upd2 f i j v i j = v := by
  simp [upd2]

theorem upd2_ne (f : ℕ → ℕ → ℚ) (i j : ℕ) (v : ℚ) {a b : ℕ}
    (h : ¬(a = i ∧ b = j)) : upd2 f i j v a b = f a b := by
  simp only [upd2]
  rw [if_neg h]

theorem upd2_mirror_at (g : ℕ → ℕ → ℚ) (i j : ℕ) :
    upd2 g j i (g i j) i j = g i j := by
  by_cases h : i = j
  · subst h; simp [upd2]
  · simp [upd2, h]

theorem upd2_mirror_sym (g : ℕ → ℕ → ℚ) (i j : ℕ) :
    upd2 g j i (g i j) j i = upd2 g j i (g i j) i j := by
  by_cases h : i = j
  · subst h; simp [upd2]
  · simp [upd2, h]

theorem upd2_set_mirror_at (f : ℕ → ℕ → ℚ) (i j : ℕ) (v : ℚ) :
    upd2 (upd2 f i j v) j i v i j = v := by
  by_cases h : i = j
  · subst h; simp [upd2]
  · simp [upd2, h]

theorem upd2_set_mirror_lower (f : ℕ → ℕ → ℚ) (i j : ℕ) (v : ℚ) :
    upd2 (upd2 f i j v) j i v j i = v := by
  simp [upd2]

theorem mirrorStage_sigma (i j : ℕ) (s : PairState) :
    (mirrorStage i j s).sigma = s.sigma := rfl

theorem mirrorStage_cut (i j : ℕ) (s : PairState) :
    (mirrorStage i j s).cut = s.cut := rfl

theorem offsetStage_sigma (i j : ℕ) (s : PairState) :
    (offsetStage i j s).sigma = s.sigma := by
  unfold offsetStage; split <;> rfl

theorem offsetStage_cut (i j : ℕ) (s : PairState) :
    (offsetStage i j s).cut = s.cut := by
  unfold offsetStage; split <;> rfl

theorem offsetStage_offset_eq (i j : ℕ) (s : PairState) :
    (offsetStage i j s).offset =
      upd2 s.offset i j
        (if s.offset_flag = true ∧ 0 < s.cut i j then
          (s.sigma i j / s.cut i j) ^ 2 + (s.sigma i j / s.cut i j) ^ 4 +
          (s.sigma i j / s.cut i j) ^ 6 + (s.sigma i j / s.cut i j) ^ 8 +
          (s.sigma i j / s.cut i j) ^ 10 + (s.sigma i j / s.cut i j) ^ 12
        else 0) := by
  unfold offsetStage
  split_ifs with h <;> rfl

theorem mixStage_offset_flag (m : ℚ → ℚ → ℚ) (i j : ℕ) (s : PairState) :
    (mixStage m i j s).offset_flag = s.offset_flag := by
  unfold mixStage; split <;> rfl

theorem mixStage_sigma_lower (m : ℚ → ℚ → ℚ) (i j : ℕ) (s : PairState)
    (h : i ≠ j) : (mixStage m i j s).sigma j i = s.sigma j i := by
  unfold mixStage
  split
  · exact upd2_ne _ _ _ _ (fun hc => h hc.2)
  · rfl

theorem mixStage_cut_lower (m : ℚ → ℚ → ℚ) (i j : ℕ) (s : PairState)
    (h : i ≠ j) : (mixStage m i j s).cut j i = s.cut j i := by
  unfold mixStage
  split
  · exact upd2_ne _ _ _ _ (fun hc => h hc.2)
  · rfl

theorem resolved_cut (mix : ℚ → ℚ → ℚ) (i j : ℕ) (s : PairState) :
    (resolved mix i j s).cut = (mixStage mix i j s).cut := by
  simp only [resolved, init_one]
  rw [mirrorStage_cut, offsetStage_cut]
  rfl

theorem resolved_sigma (mix : ℚ → ℚ → ℚ) (i j : ℕ) (s : PairState) :
    (resolved mix i j s).sigma = (mixStage mix i j s).sigma := by
  simp only [resolved, init_one]
  rw [mirrorStage_sigma, offsetStage_sigma]
  rfl

theorem coeffPairs_1212 : coeffPairs 1 2 1 2 = [(1, 1), (1, 2), (2, 2)] := by decide

theorem coeffPairs_1111 : coeffPairs 1 1 1 1 = [(1, 1)] := by decide

theorem upperPairs_one : upperPairs 1 = [(1, 1)] := by decide

theorem upperPairs_two : upperPairs 2 = [(1, 1), (1, 2), (2, 2)] := by decide

/-- Claim C6, the claim as stated.  After resolve, for every k in
{2,4,6,8,10,12} the potential coefficient is `a_k * sigma^k` and the force
coefficient is k times it. -/
theorem init_one_force_potential_relation (mix : ℚ → ℚ → ℚ) (i j : ℕ) (s : PairState) :
    (resolved mix i j s).inv_poly2 i j
        = (resolved mix i j s).a2 i j * (resolved mix i j s).sigma i j ^ 2 ∧
    (resolved mix i j s).dinv_poly2 i j = 2 * (resolved mix i j s).inv_poly2 i j ∧
    (resolved mix i j s).inv_poly4 i j
        = (resolved mix i j s).a4 i j * (resolved mix i j s).sigma i j ^ 4 ∧
    (resolved mix i j s).dinv_poly4 i j = 4 * (resolved mix i j s).inv_poly4 i j ∧
    (resolved mix i j s).inv_poly6 i j
        = (resolved mix i j s).a6 i j * (resolved mix i j s).sigma i j ^ 6 ∧
    (resolved mix i j s).dinv_poly6 i j = 6 * (resolved mix i j s).inv_poly6 i j ∧
    (resolved mix i j s).inv_poly8 i j
        = (resolved mix i j s).a8 i j * (resolved mix i j s).sigma i j ^ 8 ∧
    (resolved mix i j s).dinv_poly8 i j = 8 * (resolved mix i j s).inv_poly8 i j ∧
    (resolved mix i j s).inv_poly10 i j
        = (resolved mix i j s).a10 i j * (resolved mix i j s).sigma i j ^ 10 ∧
    (resolved mix i j s).dinv_poly10 i j = 10 * (resolved mix i j s).inv_poly10 i j ∧
    (resolved mix i j s).inv_poly12 i j
        = (resolved mix i j s).a12 i j * (resolved mix i j s).sigma i j ^ 12 ∧
    (resolved mix i j s).dinv_poly12 i j = 12 * (resolved mix i j s).inv_poly12 i j := by
  simp only [resolved, init_one, mirrorStage, offsetStage, derivStage]
  split_ifs <;>
    simp only [upd2_mirror_at, upd2_at, upd2_set_mirror_at] <;>
    exact ⟨by ring, by ring, by ring, by ring, by ring, by ring,
           by ring, by ring, by ring, by ring, by ring, by ring⟩

/-- Claim C2, counterexample to the claim as stated: in a reachable state
(junk-valued lower triangle from uninitialized allocation, pairs
configured through `coeff` with `sigma = 2`), resolving pair (1,2) leaves
`sigma[2][1] = 7` while `sigma[1][2] = 2` - `init_one` mirrors only the
derived tables and `offset`, never `sigma` or `cut`, so the table state is
not fully symmetric. -/
theorem init_one_sigma_asymmetry_cex :
    ¬ (asymResolved.sigma 2 1 = asymResolved.sigma 1 2) := by
  norm_num [asymResolved, asymState, junkState, basePairState, coeff, coeffFold,
    coeffPairs_1212, allocate, boundsOK, Except.toOption, init_one, mixStage,
    derivStage, offsetStage, mirrorStage, upd2, updb, mixArith]

/-- Claim C2 amended: after `init_one` resolves pair (i,j), the six
potential coefficients, the six force coefficients and the offset hold
identical values at (i,j) and (j,i); `sigma` and `cut` are not mirrored -
for distinct types the (j,i) entries of `sigma` and `cut` are left exactly
as they were before the call. -/
theorem init_one_derived_symmetry (mix : ℚ → ℚ → ℚ) (i j : ℕ) (s : PairState) :
    ((resolved mix i j s).inv_poly2 j i = (resolved mix i j s).inv_poly2 i j ∧
     (resolved mix i j s).inv_poly4 j i = (resolved mix i j s).inv_poly4 i j ∧
     (resolved mix i j s).inv_poly6 j i = (resolved mix i j s).inv_poly6 i j ∧
     (resolved mix i j s).inv_poly8 j i = (resolved mix i j s).inv_poly8 i j ∧
     (resolved mix i j s).inv_poly10 j i = (resolved mix i j s).inv_poly10 i j ∧
     (resolved mix i j s).inv_poly12 j i = (resolved mix i j s).inv_poly12 i j ∧
     (resolved mix i j s).dinv_poly2 j i = (resolved mix i j s).dinv_poly2 i j ∧
     (resolved mix i j s).dinv_poly4 j i = (resolved mix i j s).dinv_poly4 i j ∧
     (resolved mix i j s).dinv_poly6 j i = (resolved mix i j s).dinv_poly6 i j ∧
     (resolved mix i j s).dinv_poly8 j i = (resolved mix i j s).dinv_poly8 i j ∧
     (resolved mix i j s).dinv_poly10 j i = (resolved mix i j s).dinv_poly10 i j ∧
     (resolved mix i j s).dinv_poly12 j i = (resolved mix i j s).dinv_poly12 i j ∧
     (resolved mix i j s).offset j i = (resolved mix i j s).offset i j) ∧
    (i ≠ j →
      (resolved mix i j s).sigma j i = s.sigma j i ∧
      (resolved mix i j s).cut j i = s.cut j i) := by
  constructor
  · simp only [resolved, init_one, mirrorStage, offsetStage, derivStage]
    split_ifs <;>
      simp [upd2_at, upd2_set_mirror_at, upd2_set_mirror_lower,
        upd2_mirror_at, upd2_mirror_sym]
  · intro h
    rw [resolved_sigma, resolved_cut]
    exact ⟨mixStage_sigma_lower mix i j s h, mixStage_cut_lower mix i j s h⟩

/-- Claim C2 witness: the amended symmetry theorem instantiated at the
concrete resolved state of the counterexample, with the hypothesis
`1 ≠ 2` discharged. -/
theorem init_one_derived_symmetry_witness :
    ((resolved mixArith 1 2 asymState).inv_poly2 2 1 = (resolved mixArith 1 2 asymState).inv_poly2 1 2 ∧
     (resolved mixArith 1 2 asymState).inv_poly4 2 1 = (resolved mixArith 1 2 asymState).inv_poly4 1 2 ∧
     (resolved mixArith 1 2 asymState).inv_poly6 2 1 = (resolved mixArith 1 2 asymState).inv_poly6 1 2 ∧
     (resolved mixArith 1 2 asymState).inv_poly8 2 1 = (resolved mixArith 1 2 asymState).inv_poly8 1 2 ∧
     (resolved mixArith 1 2 asymState).inv_poly10 2 1 = (resolved mixArith 1 2 asymState).inv_poly10 1 2 ∧
     (resolved mixArith 1 2 asymState).inv_poly12 2 1 = (resolved mixArith 1 2 asymState).inv_poly12 1 2 ∧
     (resolved mixArith 1 2 asymState).dinv_poly2 2 1 = (resolved mixArith 1 2 asymState).dinv_poly2 1 2 ∧
     (resolved mixArith 1 2 asymState).dinv_poly4 2 1 = (resolved mixArith 1 2 asymState).dinv_poly4 1 2 ∧
     (resolved mixArith 1 2 asymState).dinv_poly6 2 1 = (resolved mixArith 1 2 asymState).dinv_poly6 1 2 ∧
     (resolved mixArith 1 2 asymState).dinv_poly8 2 1 = (resolved mixArith 1 2 asymState).dinv_poly8 1 2 ∧
     (resolved mixArith 1 2 asymState).dinv_poly10 2 1 = (resolved mixArith 1 2 asymState).dinv_poly10 1 2 ∧
     (resolved mixArith 1 2 asymState).dinv_poly12 2 1 = (resolved mixArith 1 2 asymState).dinv_poly12 1 2 ∧
     (resolved mixArith 1 2 asymState).offset 2 1 = (resolved mixArith 1 2 asymState).offset 1 2) ∧
    ((resolved mixArith 1 2 asymState).sigma 2 1 = asymState.sigma 2 1 ∧
     (resolved mixArith 1 2 asymState).cut 2 1 = asymState.cut 2 1) :=
  ⟨(init_one_derived_symmetry mixArith 1 2 asymState).1,
   (init_one_derived_symmetry mixArith 1 2 asymState).2 (by decide)⟩

/-- Claim C3, counterexample to the claim as stated: with `sigma = 2`,
`cut = 1`, the shift flag on and all six shape coefficients zero, the
unshifted potential at the cutoff is 0, but `init_one` stores
`offset = 2^2 + 2^4 + 2^6 + 2^8 + 2^10 + 2^12 = 5460`: the source's
offset line omits the `a_k` factors. -/
theorem offset_unweighted_cex :
    ¬ (offsetDemoResolved.offset 1 1 =
        offsetDemoState.a2 1 1 * (offsetDemoState.sigma 1 1 / offsetDemoState.cut 1 1) ^ 2 +
        offsetDemoState.a4 1 1 * (offsetDemoState.sigma 1 1 / offsetDemoState.cut 1 1) ^ 4 +
        offsetDemoState.a6 1 1 * (offsetDemoState.sigma 1 1 / offsetDemoState.cut 1 1) ^ 6 +
        offsetDemoState.a8 1 1 * (offsetDemoState.sigma 1 1 / offsetDemoState.cut 1 1) ^ 8 +
        offsetDemoState.a10 1 1 * (offsetDemoState.sigma 1 1 / offsetDemoState.cut 1 1) ^ 10 +
        offsetDemoState.a12 1 1 * (offsetDemoState.sigma 1 1 / offsetDemoState.cut 1 1) ^ 12) := by
  norm_num [offsetDemoResolved, offsetDemoState, basePairState, init_one, mixStage,
    derivStage, offsetStage, mirrorStage, upd2, mixArith]

/-- Claim C3 amended: when the shift flag is enabled and `cut[i][j] > 0`
the stored offset equals the sum of the six even powers of
`sigma[i][j]/cut[i][j]` - the unshifted potential at the cutoff with every
shape coefficient replaced by 1, not weighted by the `a_k` - and equals 0
otherwise. -/
theorem init_one_offset_formula (mix : ℚ → ℚ → ℚ) (i j : ℕ) (s : PairState) :
    (resolved mix i j s).offset i j =
      if s.offset_flag = true ∧ 0 < (resolved mix i j s).cut i j then
        ((resolved mix i j s).sigma i j / (resolved mix i j s).cut i j) ^ 2 +
        ((resolved mix i j s).sigma i j / (resolved mix i j s).cut i j) ^ 4 +
        ((resolved mix i j s).sigma i j / (resolved mix i j s).cut i j) ^ 6 +
        ((resolved mix i j s).sigma i j / (resolved mix i j s).cut i j) ^ 8 +
        ((resolved mix i j s).sigma i j / (resolved mix i j s).cut i j) ^ 10 +
        ((resolved mix i j s).sigma i j / (resolved mix i j s).cut i j) ^ 12
      else 0 := by
  rw [resolved_cut, resolved_sigma]
  simp only [resolved, init_one, mirrorStage, offsetStage, derivStage, mixStage_offset_flag]
  split_ifs with h <;>
    simp only [upd2_at, upd2_set_mirror_at]

theorem mem_upperPairs (n a b : ℕ) :
    (a, b) ∈ upperPairs n ↔ 1 ≤ a ∧ a ≤ b ∧ b ≤ n := by
  simp only [upperPairs, coeffPairs, List.mem_flatMap, List.mem_map, List.mem_range'_1,
    Prod.mk.injEq]
  constructor
  · rintro ⟨i, hi, j, hj, rfl, rfl⟩
    omega
  · intro h
    exact ⟨a, by omega, b, by omega, rfl, rfl⟩

theorem settingsFold_frame (l : List (ℕ × ℕ)) (s : PairState) :
    (settingsFold l s).ntypes = s.ntypes ∧
    (settingsFold l s).cut_global = s.cut_global ∧
    (settingsFold l s).setflag = s.setflag ∧
    (settingsFold l s).sigma = s.sigma ∧
    (settingsFold l s).a2 = s.a2 ∧
    (settingsFold l s).a4 = s.a4 ∧
    (settingsFold l s).a6 = s.a6 ∧
    (settingsFold l s).a8 = s.a8 ∧
    (settingsFold l s).a10 = s.a10 ∧
    (settingsFold l s).a12 = s.a12 := by
  induction l generalizing s with
  | nil => exact ⟨rfl, rfl, rfl, rfl, rfl, rfl, rfl, rfl, rfl, rfl⟩
  | cons p t ih =>
    have h1 : settingsFold (p :: t) s =
        settingsFold t
          (if s.setflag p.1 p.2 = true then
            { s with cut := upd2 s.cut p.1 p.2 s.cut_global }
          else s) := rfl
    rw [h1]
    by_cases hf : s.setflag p.1 p.2 = true
    · rw [if_pos hf]; exact ih _
    · rw [if_neg hf]; exact ih _

theorem settingsFold_cut (l : List (ℕ × ℕ)) (s : PairState) (a b : ℕ) :
    (settingsFold l s).cut a b =
      if (a, b) ∈ l ∧ s.setflag a b = true then s.cut_global else s.cut a b := by
  induction l generalizing s with
  | nil => simp [settingsFold]
  | cons p t ih =>
    rcases p with ⟨pi, pj⟩
    have h1 : settingsFold ((pi, pj) :: t) s =
        settingsFold t
          (if s.setflag pi pj = true then
            { s with cut := upd2 s.cut pi pj s.cut_global }
          else s) := rfl
    rw [h1]
    by_cases hf : s.setflag pi pj = true
    · rw [if_pos hf, ih]
      by_cases hp : a = pi ∧ b = pj
      · obtain ⟨rfl, rfl⟩ := hp
        simp [upd2, List.mem_cons, hf]
      · simp only [List.mem_cons, Prod.mk.injEq]
        rw [upd2_ne _ _ _ _ hp]
        by_cases hm : (a, b) ∈ t <;> by_cases hs : s.setflag a b = true <;>
          simp [hm, hs, hp]
    · rw [if_neg hf, ih]
      simp only [List.mem_cons, Prod.mk.injEq]
      by_cases hp : a = pi ∧ b = pj
      · obtain ⟨rfl, rfl⟩ := hp
        simp [hf]
      · simp [hp]

/-- Claim C4, counterexample to the claim as stated: pair (1,1) is
configured through `coeff` with the explicit per-pair cutoff 3 (ten
arguments), yet a subsequent `settings` call with global cutoff 10
overwrites it - the code keys the reset on `setflag` alone and does not
track whether a cutoff was explicit. -/
theorem settings_overwrites_explicit_cut_cex :
    explicitCutState.setflag 1 1 = true ∧ explicitCutState.cut 1 1 = 3 ∧
    ¬ (explicitCutAfterSettings.cut 1 1 = explicitCutState.cut 1 1) := by
  norm_num [explicitCutAfterSettings, explicitCutState, settings, settingsFold,
    upperPairs_one, coeff, coeffFold, coeffPairs_1111, allocate, boundsOK,
    basePairState, Except.toOption, upd2, updb]

/-- Claim C4 amended: `settings` stores the new global cutoff and
retroactively overwrites the cutoff of every previously-configured
upper-triangle pair - including pairs that were configured with an
explicit per-pair cutoff - while leaving the cutoff of unconfigured pairs
and every other per-pair field unchanged. -/
theorem settings_cut_global_effect (s : PairState) (v : ℚ) (h : s.allocated = true) :
    ∃ s', settings 1 v s = .ok s' ∧
      s'.cut_global = v ∧
      (∀ a b, s'.cut a b =
        if (1 ≤ a ∧ a ≤ b ∧ b ≤ s.ntypes) ∧ s.setflag a b = true then v
        else s.cut a b) ∧
      s'.setflag = s.setflag ∧ s'.sigma = s.sigma ∧
      s'.a2 = s.a2 ∧ s'.a4 = s.a4 ∧ s'.a6 = s.a6 ∧ s'.a8 = s.a8 ∧
      s'.a10 = s.a10 ∧ s'.a12 = s.a12 := by
  refine ⟨settingsFold (upperPairs s.ntypes) { s with cut_global := v }, ?_, ?_, ?_,
    (settingsFold_frame _ _).2.2.1, (settingsFold_frame _ _).2.2.2.1,
    (settingsFold_frame _ _).2.2.2.2.1, (settingsFold_frame _ _).2.2.2.2.2.1,
    (settingsFold_frame _ _).2.2.2.2.2.2.1, (settingsFold_frame _ _).2.2.2.2.2.2.2.1,
    (settingsFold_frame _ _).2.2.2.2.2.2.2.2.1, (settingsFold_frame _ _).2.2.2.2.2.2.2.2.2⟩
  · simp [settings, h]
  · exact (settingsFold_frame _ _).2.1
  · intro a b
    rw [settingsFold_cut]
    simp [mem_upperPairs]

/-- Claim C4 witness: the amended theorem instantiated at the concrete
allocated two-type state with global cutoff 10, hypothesis discharged. -/
theorem settings_cut_global_effect_witness :
    allocState.allocated = true ∧
    (∃ s', settings 1 10 allocState = .ok s' ∧
      s'.cut_global = 10 ∧
      (∀ a b, s'.cut a b =
        if (1 ≤ a ∧ a ≤ b ∧ b ≤ allocState.ntypes) ∧ allocState.setflag a b = true then 10
        else allocState.cut a b) ∧
      s'.setflag = allocState.setflag ∧ s'.sigma = allocState.sigma ∧
      s'.a2 = allocState.a2 ∧ s'.a4 = allocState.a4 ∧ s'.a6 = allocState.a6 ∧
      s'.a8 = allocState.a8 ∧ s'.a10 = allocState.a10 ∧ s'.a12 = allocState.a12) :=
  ⟨rfl, settings_cut_global_effect allocState 10 rfl⟩

/-- Claim C7: a candidate pair whose squared separation is at (or beyond)
the squared cutoff is skipped by the kernel with no force, energy or
virial contribution and no error - the acceptance test is the strict
comparison `rsq < cutsq[itype][jtype]`, so `rsq = cutsq` is excluded. -/
theorem kernel_strict_cutoff (newton : Bool) (nlocal : ℕ) (x : ℕ → Vec3)
    (typ : ℕ → ℕ) (eflag evflag : Bool) (i j : ℕ) (factor : ℚ) (st : SimState)
    (h : st.pair.cutsq (typ i) (typ j) ≤ rsqOf (delVec x i j)) :
    computeOne newton nlocal x typ eflag evflag i st (j, factor) = st := by
  simp only [computeOne]
  rw [if_neg (not_lt.mpr h)]

/-- Claim C7 witness: with squared cutoff 4 and two particles at
separation exactly 2 (`rsq = 4 = cutsq`), the kernel step returns the
state unchanged. -/
theorem kernel_strict_cutoff_witness :
    (boundarySim.pair.cutsq (typOne 0) (typOne 1) ≤ rsqOf (delVec boundaryX 0 1)) ∧
    computeOne false 2 boundaryX typOne true true 0 boundarySim (1, 1) = boundarySim :=
  ⟨by norm_num [boundarySim, basePairState, typOne, rsqOf, delVec, boundaryX],
   kernel_strict_cutoff false 2 boundaryX typOne true true 0 1 1 boundarySim
     (by norm_num [boundarySim, basePairState, typOne, rsqOf, delVec, boundaryX])⟩

theorem computeOne_pair (newton : Bool) (nlocal : ℕ) (x : ℕ → Vec3) (typ : ℕ → ℕ)
    (eflag evflag : Bool) (i : ℕ) (st : SimState) (jf : ℕ × ℚ) :
    (computeOne newton nlocal x typ eflag evflag i st jf).pair = st.pair := by
  simp only [computeOne]
  split_ifs <;> rfl

theorem foldl_computeOne_pair (newton : Bool) (nlocal : ℕ) (x : ℕ → Vec3)
    (typ : ℕ → ℕ) (eflag evflag : Bool) (i : ℕ) (l : List (ℕ × ℚ)) (st : SimState) :
    (l.foldl (computeOne newton nlocal x typ eflag evflag i) st).pair = st.pair := by
  induction l generalizing st with
  | nil => rfl
  | cons p t ih => rw [List.foldl_cons, ih, computeOne_pair]

/-- Claim C10: a `compute` pass never modifies the pair-style
configuration or derived state - `setflag`, `sigma`, `cut`, `cutsq`, the
shape coefficients, the twelve precomputed tables, `offset` and
`cut_global` (the whole `PairState` component) are identical before and
after; the pass writes only the external force array and the
energy/virial accumulator.  (`single` is embedded as a pure function of
the state - the source writes only locals and the `fforce` output
parameter - so it cannot modify any of these either.) -/
theorem compute_preserves_config (eflag vflag newton : Bool) (nlocal : ℕ)
    (x : ℕ → Vec3) (typ : ℕ → ℕ) (ilist : List ℕ) (neigh : ℕ → List (ℕ × ℚ))
    (st : SimState) :
    (compute eflag vflag newton nlocal x typ ilist neigh st).pair = st.pair := by
  simp only [compute]
  induction ilist generalizing st with
  | nil => rfl
  | cons a t ih => rw [List.foldl_cons, ih, foldl_computeOne_pair]

/-- Claim C5: inside the cutoff, the single-pair evaluator returns exactly
the energy and writes exactly the force-per-distance that the bulk kernel
produces for the same types, squared separation and exclusion factor (as
recorded in the kernel's tally call), from the same coefficient tables and
the same algebraic reduction. -/
theorem single_matches_kernel (st : SimState) (newton : Bool) (nlocal : ℕ)
    (x : ℕ → Vec3) (typ : ℕ → ℕ) (i j : ℕ) (factor : ℚ)
    (hpos : 0 < rsqOf (delVec x i j))
    (hcut : rsqOf (delVec x i j) < st.pair.cutsq (typ i) (typ j)) :
    (computeOne newton nlocal x typ true true i st (j, factor)).tally =
      (i, j,
        (single st.pair (typ i) (typ j) (rsqOf (delVec x i j)) factor).1, 0,
        (single st.pair (typ i) (typ j) (rsqOf (delVec x i j)) factor).2,
        delVec x i j) :: st.tally := by
  simp only [computeOne, single]
  rw [if_pos hcut]
  split_ifs <;> simp [mul_comm]

/-- Claim C5 witness: the equivalence instantiated at the concrete
scenario state, separation r = 1 inside the cutoff 2.5, both hypotheses
discharged. -/
theorem single_matches_kernel_witness :
    (0 < rsqOf (delVec scenarioX 0 1)) ∧
    (rsqOf (delVec scenarioX 0 1) < scenarioSim.pair.cutsq (typOne 0) (typOne 1)) ∧
    (computeOne false 2 scenarioX typOne true true 0 scenarioSim (1, 1)).tally =
      (0, 1,
        (single scenarioSim.pair (typOne 0) (typOne 1) (rsqOf (delVec scenarioX 0 1)) 1).1, 0,
        (single scenarioSim.pair (typOne 0) (typOne 1) (rsqOf (delVec scenarioX 0 1)) 1).2,
        delVec scenarioX 0 1) :: scenarioSim.tally :=
  ⟨by norm_num [rsqOf, delVec, scenarioX],
   by norm_num [scenarioSim, scenarioState, scenarioCoeffState, init_pair, init_one,
     mixStage, derivStage, offsetStage, mirrorStage, coeff, coeffFold, coeffPairs_1111,
     allocate, boundsOK, basePairState, Except.toOption, upd2, updb, typOne, delVec,
     rsqOf, scenarioX, mixArith],
   single_matches_kernel scenarioSim false 2 scenarioX typOne 0 1 1
     (by norm_num [rsqOf, delVec, scenarioX])
     (by norm_num [scenarioSim, scenarioState, scenarioCoeffState, init_pair, init_one,
       mixStage, derivStage, offsetStage, mirrorStage, coeff, coeffFold, coeffPairs_1111,
       allocate, boundsOK, basePairState, Except.toOption, upd2, updb, typOne, delVec,
       rsqOf, scenarioX, mixArith])⟩

/-- Claim C8: in the concrete scenario (one type, `sigma = 1`, `a2 = 1`,
the other shape coefficients 0, `cut = 2.5`, two local particles at
separation r = 1, exclusion factor 1, shift off), the kernel produces
`r2inv = 1`, unshifted energy 1 and force-per-distance 2, and the force
vector on particle 0 is the separation vector (1,0,0) scaled by 2 (with
the opposite reaction on particle 1). -/
theorem concrete_scenario_values :
    (1 : ℚ) / rsqOf (delVec scenarioX 0 1) = 1 ∧
    scenarioOut.tally = [(0, 1, 1, 0, 2, ((1 : ℚ), (0 : ℚ), (0 : ℚ)))] ∧
    scenarioOut.f 0 = (2, 0, 0) ∧
    scenarioOut.f 1 = (-2, 0, 0) := by
  refine ⟨by norm_num [rsqOf, delVec, scenarioX], ?_, ?_, ?_⟩ <;>
    norm_num [scenarioOut, scenarioSim, scenarioState, scenarioCoeffState, scenarioX,
      scenarioNeigh, compute, computeOne, init_pair, init_one, mixStage, derivStage,
      offsetStage, mirrorStage, coeff, coeffFold, coeffPairs_1111, allocate, boundsOK,
      basePairState, Except.toOption, upd2, updb, typOne, delVec, rsqOf, addv, subv,
      scalev, mixArith]

/-- Claim C9: `coeff` fails with a configuration error exactly when the
argument count is wrong, a type-range bound lies outside `[1, ntypes]`, or
the ranges touch zero pairs; and on any failure the returned state is the
caller's state unchanged (the call is atomic over its own range). -/
theorem coeff_error_atomic (s : PairState) (h : s.allocated = true) (ia ja : ℕ × ℕ)
    (vals : List ℚ) :
    (∀ e s', coeff ia ja vals s = .error (e, s') → s' = s) ∧
    (((vals.length ≠ 7 ∧ vals.length ≠ 8) ∨ ¬ boundsOK s.ntypes ia ∨
        ¬ boundsOK s.ntypes ja ∨ coeffPairs ia.1 ia.2 ja.1 ja.2 = []) →
      ∃ e s', coeff ia ja vals s = .error (e, s')) := by
  by_cases hn : 2 + vals.length < 9 ∨ 10 < 2 + vals.length
  · constructor
    · intro e s' he
      simp only [coeff, if_pos hn, Except.error.injEq, Prod.mk.injEq] at he
      exact he.2.symm
    · intro _
      exact ⟨.incorrectArgs, s, by simp only [coeff, if_pos hn]⟩
  · rcases vals with _ | ⟨v1, _ | ⟨v2, _ | ⟨v3, _ | ⟨v4, _ | ⟨v5, _ | ⟨v6, _ | ⟨v7, rest⟩⟩⟩⟩⟩⟩⟩ <;>
      try (exfalso; simp only [List.length_nil, List.length_cons] at hn; omega)
    by_cases hbi : boundsOK s.ntypes ia
    · by_cases hbj : boundsOK s.ntypes ja
      · by_cases hps : coeffPairs ia.1 ia.2 ja.1 ja.2 = []
        · have hc : coeff ia ja (v1 :: v2 :: v3 :: v4 :: v5 :: v6 :: v7 :: rest) s =
              .error (.incorrectArgs, s) := by
            simp only [coeff, if_neg hn, h, if_true]
            rw [if_neg (not_not_intro hbi), if_neg (not_not_intro hbj), hps]
            rfl
          constructor
          · intro e s' he
            rw [hc] at he
            simp only [Except.error.injEq, Prod.mk.injEq] at he
            exact he.2.symm
          · intro _
            exact ⟨.incorrectArgs, s, hc⟩
        · constructor
          · intro e s' he
            simp only [coeff, if_neg hn, h, if_true] at he
            rw [if_neg (not_not_intro hbi), if_neg (not_not_intro hbj),
              if_neg (fun hc0 => hps (List.length_eq_zero.mp hc0))] at he
            exact absurd he (by simp)
          · intro hdisj
            exfalso
            rcases hdisj with h1 | h2 | h3 | h4
            · simp only [List.length_cons] at h1 hn
              omega
            · exact h2 hbi
            · exact h3 hbj
            · exact hps h4
      · have hc : coeff ia ja (v1 :: v2 :: v3 :: v4 :: v5 :: v6 :: v7 :: rest) s =
            .error (.badTypeRange, s) := by
          simp only [coeff, if_neg hn, h, if_true]
          rw [if_neg (not_not_intro hbi), if_pos hbj]
        constructor
        · intro e s' he
          rw [hc] at he
          simp only [Except.error.injEq, Prod.mk.injEq] at he
          exact he.2.symm
        · intro _
          exact ⟨.badTypeRange, s, hc⟩
    · have hc : coeff ia ja (v1 :: v2 :: v3 :: v4 :: v5 :: v6 :: v7 :: rest) s =
          .error (.badTypeRange, s) := by
        simp only [coeff, if_neg hn, h, if_true]
        rw [if_pos hbi]
      constructor
      · intro e s' he
        rw [hc] at he
        simp only [Except.error.injEq, Prod.mk.injEq] at he
        exact he.2.symm
      · intro _
        exact ⟨.badTypeRange, s, hc⟩

/-- Claim C9 witness: the error theorem instantiated at the allocated
two-type state with `i_low = 0` (out of range), seven numeric arguments;
the allocation hypothesis is discharged by `rfl`. -/
theorem coeff_error_atomic_witness :
    allocState.allocated = true ∧
    ((∀ e s', coeff (0, 1) (1, 1) [1, 0, 0, 0, 0, 0, 0] allocState = .error (e, s') →
        s' = allocState) ∧
     (((([1, 0, 0, 0, 0, 0, 0] : List ℚ).length ≠ 7 ∧
          ([1, 0, 0, 0, 0, 0, 0] : List ℚ).length ≠ 8) ∨
        ¬ boundsOK allocState.ntypes (0, 1) ∨ ¬ boundsOK allocState.ntypes (1, 1) ∨
        coeffPairs 0 1 1 1 = []) →
      ∃ e s', coeff (0, 1) (1, 1) [1, 0, 0, 0, 0, 0, 0] allocState = .error (e, s'))) :=
  ⟨rfl, coeff_error_atomic allocState rfl (0, 1) (1, 1) [1, 0, 0, 0, 0, 0, 0]⟩

/-- Claim C1, the code evaluated at the failing input: with one configured
pair (`sigma = 2`, `cut = 3`, `a2 = 5`), the writer emits the settings
followed by `[flag = 1, sigma = 2, cut = 3]` - two doubles per set pair -
while the reader demands eight doubles (`sigma, a2..a12, cut`) per set
pair, so reading back the written stream aborts on a truncated stream:
the reader is not the mirror of the writer and the round trip fails. -/
theorem restart_roundtrip_fails :
    write_restart restartDemoState = [4, 1, 1, 1, 2, 3] ∧
    read_restart (write_restart restartDemoState) restartDemoState = none := by
  constructor
  · norm_num [write_restart, write_restart_settings, write_restart_pairs,
      restartDemoState, basePairState, upperPairs_one]
  · norm_num [read_restart, read_restart_settings, readPairsLoop, write_restart,
      write_restart_settings, write_restart_pairs, restartDemoState, basePairState,
      upperPairs_one, allocate, upd2, updb]
